import Mathlib

/-!
Verification development for the print-server repository.

The JavaScript sources are shallowly embedded below:
  * `formatPhone`                     from src/utils.js
  * `preprocessOrderItem`, `preprocessOrderItems`, `groupItemsByKitchen`,
    `getOrderTotals`                  from src/unnamed/part_001 (orderItems.js)
  * `printOrder` and its helpers     from src/printer.js
  * the per-job protocol of `processQueue` and the queue/busy-flag
    scheduling discipline             from src/server.js

JavaScript numbers are modelled as `Rat` (no claim depends on binary
floating point), possibly-absent fields as `Option`, and JS string
values as `String`.
-/

namespace PrintServer

/-! ## Configuration constants (src/firestore.js CONFIG) -/

def PST_RATE : Rat := 6 / 100

def GST_RATE : Rat := 5 / 100

def SPECIAL_ITEM : String := "#3"

def EGG_ROLL : String := "Egg Roll"

def SPRING_ROLL : String := "Spring Roll"

def RICE : String := "Rice"

def NOODLES : String := "Noodles"

def TAKE_OUT : String := "Take Out"

def EMPTY_TAG : String := ""

def DINE_IN : String := "Dine In"

def KITCHEN_A : String := "A"

def KITCHEN_B : String := "B"

def KITCHEN_C : String := "C"

def KITCHEN_Z : String := "Z"

def RESTAURANT_NAME : String := "Asian Le Restaurant"

def RESTAURANT_ADDRESS : String := "3-1400 6th Ave E"

def RESTAURANT_PHONE : String := "306-764-7799"

/-! ## src/utils.js: formatPhone

`function formatPhone(phone)`: `if (!phone) return ""` covers a missing
(null/undefined) argument and the empty string, so the input is modelled
as `Option String`.  `phone.replace(/\D/g, "")` keeps exactly the ASCII
digits.  JavaScript `slice` with negative indices clamps at 0, which is
what `Nat` subtraction does in `List.take`/`List.drop`. -/

def digitsOf (s : String) : List Char :=
  s.toList.filter Char.isDigit

def formatPhone (phone : Option String) : String :=
  match phone with
  | none => ""
  | some s =>
    if s = "" then ""
    else
      let d := digitsOf s
      let n := d.length
      if 7 < n then
        String.mk (d.take (n - 7)) ++ " " ++ String.mk ((d.drop (n - 7)).take 3)
          ++ "-" ++ String.mk (d.drop (n - 4))
      else
        String.mk (d.take (n - 4)) ++ "-" ++ String.mk (d.drop (n - 4))

/-- C10: `formatPhone` is total on strings: null/empty input yields the empty
string; otherwise the non-digits are stripped and the remaining digits are
formatted as "leading digits, space, next three, hyphen, last four" when more
than 7 digits remain, and as "digits with a hyphen before the last four"
otherwise. -/
theorem c10_formatPhone_total :
    formatPhone none = "" ∧ formatPhone (some ("")) = "" ∧
    ∀ s : String, s ≠ "" →
      (7 < (digitsOf s).length →
        formatPhone (some s)
          = String.mk ((digitsOf s).take ((digitsOf s).length - 7)) ++ " "
            ++ String.mk (((digitsOf s).drop ((digitsOf s).length - 7)).take 3)
            ++ "-" ++ String.mk ((digitsOf s).drop ((digitsOf s).length - 4))) ∧
      ((digitsOf s).length ≤ 7 →
        formatPhone (some s)
          = String.mk ((digitsOf s).take ((digitsOf s).length - 4))
            ++ "-" ++ String.mk ((digitsOf s).drop ((digitsOf s).length - 4))) := by
  refine ⟨rfl, rfl, fun s hs => ⟨fun h7 => ?_, fun h7 => ?_⟩⟩
  · simp only [formatPhone, if_neg hs, if_pos h7]
  · simp only [formatPhone, if_neg hs, if_neg (not_lt.mpr h7)]

/-- Witness for C10 at the concrete phone number "306-764-7799x": the
ten digits exceed 7, so the area code is split off. -/
theorem c10_formatPhone_total_witness :
    ("3067647799" ≠ ("" : String) ∧ 7 < (digitsOf ("3067647799")).length) ∧
      formatPhone (some ("3067647799")) = "306 764-7799" := by
  refine ⟨⟨by decide, by decide⟩, ?_⟩
  have h := (c10_formatPhone_total.2.2 ("3067647799") (by decide)).1 (by decide)
  rw [h]
  decide

/-! ## Order item model (orderItems.js)

An option record carries `name`, an optional `quantity` and an optional
`price` (absent JS fields are `none`).  An item carries the fields that
`preprocessOrderItem`, `groupItemsByKitchen` and the printing helpers read.
`options : Option (List OptRec)` models the `Array.isArray` test: `none`
stands for an absent or non-array field. -/

structure OptRec where
  name : String := ""
  quantity : Option Nat := none
  price : Option Rat := none
deriving DecidableEq

structure ExtraRec where
  description : String := ""
  price : Rat := 0
deriving DecidableEq

structure ChangeRec where
  from_ : String := ""
  to_ : String := ""
  price : Rat := 0
deriving DecidableEq

structure Item where
  name : String := ""
  quantity : Option Nat := none
  price : Rat := 0
  kitchenType : String := ""
  appetizer : Bool := false
  togo : Bool := false
  options : Option (List OptRec) := none
  extras : List ExtraRec := []
  changes : List ChangeRec := []
  instructions : Option String := none
  displayName : Option String := none
deriving DecidableEq

/-- The display-name rule shared by both branches of `preprocessOrderItem`:
`processed.quantity > 1 ? `${quantity}x ${name}` : name`.  An absent
quantity compares as not-greater-than-1 in JS. -/
def mkDisplayName (quantity : Option Nat) (name : String) : String :=
  match quantity with
  | some q => if 1 < q then toString q ++ "x " ++ name else name
  | none => name

/-- JS `list.find(p)` followed by `list.filter(x => x !== found)`: returns the
first element satisfying `p` (if any) together with the list with that
occurrence removed.  The JS filter removes by object reference, which for the
distinct records of a decoded order is exactly the found occurrence. -/
def extractFirst (p : α → Bool) : List α → Option α × List α
  | [] => (none, [])
  | x :: xs =>
    if p x then (some x, xs)
    else
      let r := extractFirst p xs
      (r.1, x :: r.2)

/-- Predicate of the egg-roll/spring-roll rule:
`(name === EGG_ROLL || name === SPRING_ROLL) && (!quantity || quantity <= 1)`.
A missing quantity and a zero quantity are both falsy, hence accepted. -/
def eggSpringPred (o : OptRec) : Bool :=
  (o.name == EGG_ROLL || o.name == SPRING_ROLL) &&
    (match o.quantity with
     | none => true
     | some q => q == 0 || q ≤ 1)

def riceNoodlePred (o : OptRec) : Bool :=
  o.name == RICE || o.name == NOODLES

/-- orderItems.js `preprocessOrderItem` (value-level embedding).  The JS
function first takes a shallow copy `{...item}`, then rewrites `name` and
`options` on the copy via up to three rules, each consuming at most one
option from the residual option list, and finally computes `displayName`. -/
def preprocessOrderItem (item : Item) : Item :=
  match item.options with
  | none => { item with displayName := some (mkDisplayName item.quantity item.name) }
  | some opts =>
    if opts.isEmpty then
      { item with displayName := some (mkDisplayName item.quantity item.name) }
    else
      -- special case for "#3": consume the first non-egg-roll, non-spring-roll option
      let s1 :=
        if item.name = SPECIAL_ITEM then
          match extractFirst (fun o => !(o.name == EGG_ROLL) && !(o.name == SPRING_ROLL)) opts with
          | (some m, rest) => (item.name ++ "/" ++ m.name, rest)
          | (none, _) => (item.name, opts)
        else (item.name, opts)
      -- egg roll / spring roll (skipped if the option has quantity > 1)
      let s2 :=
        match extractFirst eggSpringPred s1.2 with
        | (some o, rest) =>
          (s1.1 ++ "/" ++ (if o.name == EGG_ROLL then "ER" else "SP"), rest)
        | (none, _) => s1
      -- rice / noodles
      let s3 :=
        match extractFirst riceNoodlePred s2.2 with
        | (some o, rest) =>
          (s2.1 ++ "/" ++ (if o.name == RICE then "Rice" else "ND"), rest)
        | (none, _) => s2
      { item with
          name := s3.1
          options := some s3.2
          displayName := some (mkDisplayName item.quantity s3.1) }

/-- orderItems.js `preprocessOrderItems`: non-array input yields `[]`. -/
def preprocessOrderItems (orderItems : Option (List Item)) : List Item :=
  match orderItems with
  | none => []
  | some items => items.map preprocessOrderItem

/-- The concrete item of claim C6: name "#3" with options Egg Roll then
Fried Rice. -/
def c6Item : Item :=
  { name := "#3",
    options := some [{ name := "Egg Roll" }, { name := "Fried Rice" }] }

/-- C6: on an item named "#3" with options [Egg Roll, Fried Rice], the
special-item rule consumes "Fried Rice" (the first option that is neither an
egg roll nor a spring roll), then the egg-roll rule consumes "Egg Roll" from
the residual list, yielding name "#3/Fried Rice/ER" and an empty remaining
option list. -/
theorem c6_preprocess_special_item :
    (preprocessOrderItem c6Item).name = "#3/Fried Rice/ER" ∧
    (preprocessOrderItem c6Item).options = some [] ∧
    (preprocessOrderItem c6Item).displayName = some "#3/Fried Rice/ER" := by
  refine ⟨?_, ?_, ?_⟩ <;> decide

/-! ## orderItems.js: groupItemsByKitchen -/

structure KSection where
  label : String
  items : List Item
deriving DecidableEq

/-- orderItems.js `filterByKitchen`:
`item.kitchenType === kitchenType && !item.appetizer && !item.togo`. -/
def filterByKitchen (kitchenType : String) (item : Item) : Bool :=
  item.kitchenType == kitchenType && !item.appetizer && !item.togo

def togoPred (item : Item) : Bool :=
  item.togo && !item.appetizer

/-- orderItems.js `groupItemsByKitchen`: builds the five fixed sections,
appends the togo section unless `excludeTogo`, and drops empty sections. -/
def groupItemsByKitchen (items : List Item) (excludeTogo : Bool := false) :
    List KSection :=
  let appetizers := items.filter (fun item => item.appetizer)
  let kitchenA := items.filter (filterByKitchen KITCHEN_A)
  let kitchenB := items.filter (filterByKitchen KITCHEN_B)
  let kitchenZ := items.filter (filterByKitchen KITCHEN_Z)
  let kitchenC := items.filter (filterByKitchen KITCHEN_C)
  let sections : List KSection :=
    [{ label := "Appetizers", items := appetizers },
     { label := "Kitchen A", items := kitchenA },
     { label := "Kitchen Z", items := kitchenZ },
     { label := "Kitchen B", items := kitchenB },
     { label := "Kitchen C", items := kitchenC }]
  let sections :=
    if !excludeTogo then
      sections ++ [{ label := "Togo Items", items := items.filter togoPred }]
    else sections
  sections.filter (fun s => !s.items.isEmpty)

def sectionLabels : List String :=
  ["Appetizers", "Kitchen A", "Kitchen Z", "Kitchen B", "Kitchen C", "Togo Items"]

/-- The six candidate sections of `groupItemsByKitchen`, before dropping the
empty ones. -/
def baseSections (items : List Item) : List KSection :=
  [{ label := "Appetizers", items := items.filter (fun item => item.appetizer) },
   { label := "Kitchen A", items := items.filter (filterByKitchen KITCHEN_A) },
   { label := "Kitchen Z", items := items.filter (filterByKitchen KITCHEN_Z) },
   { label := "Kitchen B", items := items.filter (filterByKitchen KITCHEN_B) },
   { label := "Kitchen C", items := items.filter (filterByKitchen KITCHEN_C) },
   { label := "Togo Items", items := items.filter togoPred }]

/-- Unfolding of `groupItemsByKitchen` at the default flag: the six fixed
sections, with empty ones dropped. -/
lemma groupItemsByKitchen_false (items : List Item) :
    groupItemsByKitchen items false
      = (baseSections items).filter (fun s => !s.items.isEmpty) := rfl

/-- Two filters by pointwise-incompatible predicates share no member. -/
lemma filter_mem_disjoint {items : List Item} {p q : Item → Bool}
    (h : ∀ item : Item, p item = true → q item = true → False) :
    ∀ x, x ∈ items.filter p → x ∉ items.filter q := fun x hx hx' =>
  h x (List.mem_filter.mp hx).2 (List.mem_filter.mp hx').2

lemma not_isEmpty_of_mem {l : List Item} {x : Item} (h : x ∈ l) :
    (!l.isEmpty) = true := by
  cases l with
  | nil => cases h
  | cons a t => rfl

lemma ne_nil_of_not_isEmpty {l : List Item} (h : (!l.isEmpty) = true) :
    l ≠ [] := by
  cases l with
  | nil => exact Bool.noConfusion h
  | cons a t => exact List.cons_ne_nil a t

/-- A member of one of the six candidate sections is covered by the result of
`groupItemsByKitchen` (the hosting section survives, being non-empty). -/
lemma mem_group_of {items : List Item} {x : Item} {s : KSection}
    (hs : s ∈ baseSections items) (hx : x ∈ s.items) :
    ∃ t ∈ groupItemsByKitchen items false, x ∈ t.items := by
  refine ⟨s, ?_, hx⟩
  rw [groupItemsByKitchen_false]
  exact List.mem_filter.mpr ⟨hs, not_isEmpty_of_mem hx⟩

/-- C5: `groupItemsByKitchen` (with the default `excludeTogo = false`)
partitions any list of model-conforming items (kitchenType drawn from the
configured enum A/B/C/Z) into mutually exclusive sections, the union of the
returned sections equals the input set, the relative section order is always
Appetizers, Kitchen A, Kitchen Z, Kitchen B, Kitchen C, Togo Items, and a
section is present only if it is non-empty. -/
theorem c5_group_partition (items : List Item)
    (hwf : ∀ item ∈ items, item.kitchenType ∈ [KITCHEN_A, KITCHEN_B, KITCHEN_C, KITCHEN_Z]) :
    (groupItemsByKitchen items false).Pairwise
        (fun s t => ∀ x, x ∈ s.items → x ∉ t.items) ∧
    (∀ x, (∃ s ∈ groupItemsByKitchen items false, x ∈ s.items) ↔ x ∈ items) ∧
    ((groupItemsByKitchen items false).map KSection.label).Sublist sectionLabels ∧
    (∀ s ∈ groupItemsByKitchen items false, s.items ≠ []) := by
  refine ⟨?_, ?_, ?_, ?_⟩
  · -- mutual exclusivity: the six predicates are pairwise incompatible
    rw [groupItemsByKitchen_false]
    refine List.Pairwise.sublist (List.filter_sublist _) ?_
    refine List.Pairwise.cons (fun t ht => ?_)
      (List.Pairwise.cons (fun t ht => ?_)
        (List.Pairwise.cons (fun t ht => ?_)
          (List.Pairwise.cons (fun t ht => ?_)
            (List.Pairwise.cons (fun t ht => ?_)
              (List.pairwise_singleton _ _)))))
    all_goals
      simp only [List.mem_cons, List.not_mem_nil, or_false] at ht
    all_goals
      rcases ht with rfl | rfl | rfl | rfl | rfl
    all_goals
      intro x hx hx'
      have h1 := (List.mem_filter.mp hx).2
      have h2 := (List.mem_filter.mp hx').2
      simp only [filterByKitchen, togoPred, KITCHEN_A, KITCHEN_B, KITCHEN_C,
        KITCHEN_Z, Bool.and_eq_true, Bool.not_eq_true', beq_iff_eq] at h1 h2
      simp_all
  · -- the union of the returned sections is the input set
    intro x
    constructor
    · rintro ⟨s, hs, hx⟩
      rw [groupItemsByKitchen_false] at hs
      have hmem := List.mem_of_mem_filter hs
      simp only [baseSections, List.mem_cons, List.not_mem_nil, or_false] at hmem
      rcases hmem with rfl | rfl | rfl | rfl | rfl | rfl <;>
        exact (List.mem_filter.mp hx).1
    · intro hx
      by_cases ha : x.appetizer
      · exact @mem_group_of items x
          ⟨"Appetizers", items.filter (fun item => item.appetizer)⟩
          (by simp [baseSections]) (List.mem_filter.mpr ⟨hx, ha⟩)
      · by_cases ht : x.togo
        · have hpx : togoPred x = true := by simp [togoPred, ht, ha]
          exact @mem_group_of items x ⟨"Togo Items", items.filter togoPred⟩
            (by simp [baseSections]) (List.mem_filter.mpr ⟨hx, hpx⟩)
        · have hk := hwf x hx
          have hpx : ∀ k : String, x.kitchenType = k →
              filterByKitchen k x = true := by
            intro k hkk
            simp [filterByKitchen, ha, ht, ← hkk]
          simp only [List.mem_cons, List.not_mem_nil, or_false] at hk
          rcases hk with hk | hk | hk | hk
          · exact @mem_group_of items x
              ⟨"Kitchen A", items.filter (filterByKitchen KITCHEN_A)⟩
              (by simp [baseSections]) (List.mem_filter.mpr ⟨hx, hpx KITCHEN_A hk⟩)
          · exact @mem_group_of items x
              ⟨"Kitchen B", items.filter (filterByKitchen KITCHEN_B)⟩
              (by simp [baseSections]) (List.mem_filter.mpr ⟨hx, hpx KITCHEN_B hk⟩)
          · exact @mem_group_of items x
              ⟨"Kitchen C", items.filter (filterByKitchen KITCHEN_C)⟩
              (by simp [baseSections]) (List.mem_filter.mpr ⟨hx, hpx KITCHEN_C hk⟩)
          · exact @mem_group_of items x
              ⟨"Kitchen Z", items.filter (filterByKitchen KITCHEN_Z)⟩
              (by simp [baseSections]) (List.mem_filter.mpr ⟨hx, hpx KITCHEN_Z hk⟩)
  · -- fixed relative order of the surviving labels
    rw [groupItemsByKitchen_false]
    exact List.Sublist.map KSection.label (List.filter_sublist _)
  · -- only non-empty sections are returned
    intro s hs
    rw [groupItemsByKitchen_false] at hs
    exact ne_nil_of_not_isEmpty (List.mem_filter.mp hs).2

/-- Concrete item list for the C5 witness. -/
def c5Items : List Item :=
  [{ kitchenType := "A", appetizer := true },
   { kitchenType := "B" },
   { kitchenType := "C", togo := true }]

/-- Witness for C5: the partition properties hold at a concrete item list
whose kitchen types are drawn from the configured enum. -/
theorem c5_group_partition_witness :
    (∀ item ∈ c5Items, item.kitchenType ∈ [KITCHEN_A, KITCHEN_B, KITCHEN_C, KITCHEN_Z]) ∧
    ((groupItemsByKitchen c5Items false).Pairwise
        (fun s t => ∀ x, x ∈ s.items → x ∉ t.items) ∧
      (∀ x, (∃ s ∈ groupItemsByKitchen c5Items false, x ∈ s.items) ↔ x ∈ c5Items) ∧
      ((groupItemsByKitchen c5Items false).map KSection.label).Sublist sectionLabels ∧
      (∀ s ∈ groupItemsByKitchen c5Items false, s.items ≠ [])) :=
  ⟨by decide, c5_group_partition c5Items (by decide)⟩

/-! ## Order model and orderItems.js getOrderTotals

The order's optional precomputed tax breakdown is read from the fields
`total`, `pst`, `gst`, `grandTotal` (each possibly absent or non-numeric,
modelled as `Option Rat`).  Timestamps are modelled as the plain
`{seconds, nanoseconds}` pair (the rich-object form converts to the same
value via `toDate`, which no claim inspects). -/

structure TaxBreakdown where
  total : Option Rat := none
  pst : Option Rat := none
  gst : Option Rat := none
  grandTotal : Option Rat := none
deriving DecidableEq

structure Timestamp where
  seconds : Int := 0
  nanoseconds : Int := 0
deriving DecidableEq

structure Order where
  id : String := ""
  orderType : String := ""
  isPreorder : Bool := false
  tableNumber : Option String := none
  name : Option String := none
  phoneNumber : Option String := none
  guests : Option Nat := none
  staffName : Option String := none
  createdAt : Option Timestamp := none
  preorderTime : Option Timestamp := none
  readyTime : Option Nat := none
  paid : Bool := false
  orderItems : Option (List Item) := none
  total : Option Rat := none
  taxBreakDown : Option TaxBreakdown := none
  taxbreakdown : Option TaxBreakdown := none
  printId : Option String := none
deriving DecidableEq

/-- Result record of `getOrderTotals` — note its subtotal field is named
`subtotal`, not `total`. -/
structure Totals where
  subtotal : Rat
  pst : Rat
  gst : Rat
  grandTotal : Rat
deriving DecidableEq

/-- orderItems.js `getOrderTotals(order, fallbackSubtotal)`:
`order.taxBreakDown || order.taxbreakdown` is trusted when it carries a
numeric `grandTotal`, falling back field-by-field; otherwise
`fallbackSubtotal ?? order.total ?? 0` is taxed locally. -/
def getOrderTotals (order : Order) (fallbackSubtotal : Option Rat := none) : Totals :=
  let tb :=
    match order.taxBreakDown with
    | some t => some t
    | none => order.taxbreakdown
  match tb with
  | some t =>
    match t.grandTotal with
    | some g =>
      { subtotal :=
          match t.total with
          | some v => v
          | none => fallbackSubtotal.getD 0,
        pst := t.pst.getD 0,
        gst := t.gst.getD 0,
        grandTotal := g }
    | none =>
      let sub := fallbackSubtotal.getD (order.total.getD 0)
      { subtotal := sub, pst := sub * PST_RATE, gst := sub * GST_RATE,
        grandTotal := sub + sub * PST_RATE + sub * GST_RATE }
  | none =>
    let sub := fallbackSubtotal.getD (order.total.getD 0)
    { subtotal := sub, pst := sub * PST_RATE, gst := sub * GST_RATE,
      grandTotal := sub + sub * PST_RATE + sub * GST_RATE }

/-- Re-supplying the output of `getOrderTotals` as the order's precomputed
breakdown, literally: the returned record has fields subtotal/pst/gst/
grandTotal, so viewed as a breakdown object its `total` field is absent. -/
def totalsAsBreakdown (t : Totals) : TaxBreakdown :=
  { total := none, pst := some t.pst, gst := some t.gst,
    grandTotal := some t.grandTotal }

/-- The concrete order of the C7 counterexample: no precomputed breakdown,
subtotal 100. -/
def c7Order : Order := { total := some 100 }

/-- Counterexample to C7 as stated: for the order with subtotal 100 the first
call returns subtotal 100, but feeding that record back as the breakdown makes
the second call return subtotal 0 (the record stores the value under
`subtotal` while the breakdown reader looks for `total`), so the round trip
does not return the same record. -/
theorem c7_roundtrip_counterexample :
    getOrderTotals c7Order none
      = { subtotal := 100, pst := 6, gst := 5, grandTotal := 111 } ∧
    getOrderTotals
        { c7Order with
            taxBreakDown := some (totalsAsBreakdown (getOrderTotals c7Order none)) }
        none
      ≠ getOrderTotals c7Order none := by
  constructor
  · show Totals.mk _ _ _ _ = _
    simp only [getOrderTotals, c7Order, Option.getD, PST_RATE, GST_RATE]
    norm_num
  · intro h
    have hsub := congrArg Totals.subtotal h
    simp only [getOrderTotals, c7Order, totalsAsBreakdown, Option.getD] at hsub
    norm_num at hsub

/-- C7 amended: feeding the returned record back as the precomputed breakdown
reproduces pst, gst and grandTotal exactly (the grandTotal in particular),
while the second call's subtotal is the caller-supplied fallback subtotal or 0
rather than the original subtotal, because the output record stores that value
under `subtotal` and the breakdown is read from its `total` field. -/
theorem c7_roundtrip_amended (order : Order) (fb fb2 : Option Rat) :
    (getOrderTotals
        { order with
            taxBreakDown := some (totalsAsBreakdown (getOrderTotals order fb)) }
        fb2).pst = (getOrderTotals order fb).pst ∧
    (getOrderTotals
        { order with
            taxBreakDown := some (totalsAsBreakdown (getOrderTotals order fb)) }
        fb2).gst = (getOrderTotals order fb).gst ∧
    (getOrderTotals
        { order with
            taxBreakDown := some (totalsAsBreakdown (getOrderTotals order fb)) }
        fb2).grandTotal = (getOrderTotals order fb).grandTotal ∧
    (getOrderTotals
        { order with
            taxBreakDown := some (totalsAsBreakdown (getOrderTotals order fb)) }
        fb2).subtotal = fb2.getD 0 := by
  refine ⟨?_, ?_, ?_, ?_⟩ <;>
    simp only [getOrderTotals, totalsAsBreakdown, Option.getD]

/-! ## server.js processQueue: the per-job processing protocol

`processQueue` (src/server.js lines 24-93) dequeues one order and runs the
try/catch/finally protocol.  The external world — whether each `printOrder`
call completes or throws, whether the Firestore get/update/delete calls
succeed, and whether the order's source-of-truth document exists — is an
oracle `Env`.  The protocol is embedded as a function from the oracle and
the dequeued job to the list of performed effects (an event trace) together
with the `printSucceeded` flag. -/

structure Job where
  id : String := ""
  orderType : String := ""
  printId : Option String := none
deriving DecidableEq

structure Env where
  printOk : String → String → Bool
  getOk : String → String → Bool
  docExists : String → String → Bool
  updateOk : String → String → Bool
  deleteOk : String → Bool

inductive PEv where
  | print (orderId kitchen : String)
  | getDoc (collection docId : String)
  | update (collection docId : String)
  | logNotFound (collection docId : String)
  | logUpdateError (docId : String)
  | logPrintError (docId : String)
  | delete (printId : String)
  | logDeleteError (printId : String)
deriving DecidableEq

/-- The emission step (server.js lines 34-41): Take Out prints to kitchen B
then kitchen A, a thrown first call aborting the loop; any other order type
prints once with the empty kitchen tag. -/
def emissionStep (env : Env) (job : Job) : List PEv × Bool :=
  if job.orderType = TAKE_OUT then
    if env.printOk job.id KITCHEN_B then
      if env.printOk job.id KITCHEN_A then
        ([PEv.print job.id KITCHEN_B, PEv.print job.id KITCHEN_A], true)
      else ([PEv.print job.id KITCHEN_B, PEv.print job.id KITCHEN_A], false)
    else ([PEv.print job.id KITCHEN_B], false)
  else ([PEv.print job.id EMPTY_TAG], env.printOk job.id EMPTY_TAG)

/-- Overall success of the emission step. -/
def emissionOk (env : Env) (job : Job) : Bool :=
  if job.orderType = TAKE_OUT then
    env.printOk job.id KITCHEN_B && env.printOk job.id KITCHEN_A
  else env.printOk job.id EMPTY_TAG

def collectionFor (job : Job) : String :=
  if job.orderType = DINE_IN then "dineInOrders" else "takeOutOrders"

/-- The printed-flag update step (server.js lines 43-72).  It runs only on
the success path of the outer try: when printing succeeded, the
source-of-truth document is fetched and, if it exists, updated; a missing
document is logged, and a thrown get/update is caught and logged.  When
printing failed, the outer catch only logs the print error. -/
def updateStep (env : Env) (job : Job) (printSucceeded : Bool) : List PEv :=
  if printSucceeded then
    let coll := collectionFor job
    PEv.getDoc coll job.id ::
      (if env.getOk coll job.id then
        if env.docExists coll job.id then
          PEv.update coll job.id ::
            (if env.updateOk coll job.id then [] else [PEv.logUpdateError job.id])
        else [PEv.logNotFound coll job.id]
      else [PEv.logUpdateError job.id])
  else [PEv.logPrintError job.id]

/-- The finally block (server.js lines 73-92): when the job carries a
`printId`, the durable queue entry is deleted, a thrown delete being caught
and logged; without a `printId` nothing is attempted. -/
def finallyStep (env : Env) (job : Job) : List PEv :=
  match job.printId with
  | some pid =>
    PEv.delete pid :: (if env.deleteOk pid then [] else [PEv.logDeleteError pid])
  | none => []

/-- The whole per-job protocol: emission, then the success-path update block
or the failure-path log, then the finally block; the job's outcome is the
`printSucceeded` flag. -/
def processOneJob (env : Env) (job : Job) : List PEv × Bool :=
  ((emissionStep env job).1
      ++ updateStep env job (emissionStep env job).2
      ++ finallyStep env job,
    (emissionStep env job).2)

def isPrintEv : PEv → Bool
  | PEv.print _ _ => true
  | _ => false

def isGetDocEv : PEv → Bool
  | PEv.getDoc _ _ => true
  | _ => false

def isUpdateEv : PEv → Bool
  | PEv.update _ _ => true
  | _ => false

/-- An update attempt on the printed flag: the document fetch or the update
call itself. -/
def isFlagUpdateAttemptEv (ev : PEv) : Bool :=
  isGetDocEv ev || isUpdateEv ev

def isDeleteEv : PEv → Bool
  | PEv.delete _ => true
  | _ => false

def isLogDeleteErrEv : PEv → Bool
  | PEv.logDeleteError _ => true
  | _ => false

def isLogNotFoundEv : PEv → Bool
  | PEv.logNotFound _ _ => true
  | _ => false

def isLogUpdateErrEv : PEv → Bool
  | PEv.logUpdateError _ => true
  | _ => false

lemma emissionStep_snd (env : Env) (job : Job) :
    (emissionStep env job).2 = emissionOk env job := by
  unfold emissionStep emissionOk
  split_ifs <;> simp_all

lemma processOneJob_fst (env : Env) (job : Job) :
    (processOneJob env job).1
      = (emissionStep env job).1
          ++ updateStep env job (emissionStep env job).2
          ++ finallyStep env job := rfl

/-- The emission step issues exactly the print events: to B then A for a
Take Out job (A only reached when B does not throw), a single empty-tagged
print otherwise. -/
lemma emissionStep_fst (env : Env) (job : Job) :
    (emissionStep env job).1
      = (if job.orderType = TAKE_OUT then
           if env.printOk job.id KITCHEN_B then
             [PEv.print job.id KITCHEN_B, PEv.print job.id KITCHEN_A]
           else [PEv.print job.id KITCHEN_B]
         else [PEv.print job.id EMPTY_TAG]) := by
  unfold emissionStep
  split_ifs <;> rfl

lemma emissionStep_filter_not_print (env : Env) (job : Job) (p : PEv → Bool)
    (hp : ∀ a b, p (PEv.print a b) = false) :
    ((emissionStep env job).1).filter p = [] := by
  unfold emissionStep
  split_ifs <;> simp [List.filter, hp]

lemma emissionStep_filter_print (env : Env) (job : Job) :
    ((emissionStep env job).1).filter isPrintEv = (emissionStep env job).1 := by
  unfold emissionStep
  split_ifs <;> simp [List.filter, isPrintEv]

lemma updateStep_filter_print (env : Env) (job : Job) (ok : Bool) :
    (updateStep env job ok).filter isPrintEv = [] := by
  unfold updateStep
  split_ifs <;> simp [List.filter, isPrintEv] <;>
    split_ifs <;> simp [List.filter, isPrintEv]

lemma updateStep_filter_attempt (env : Env) (job : Job) (ok : Bool) :
    (updateStep env job ok).filter isFlagUpdateAttemptEv
      = (if ok then
           if env.getOk (collectionFor job) job.id
               && env.docExists (collectionFor job) job.id then
             [PEv.getDoc (collectionFor job) job.id,
              PEv.update (collectionFor job) job.id]
           else [PEv.getDoc (collectionFor job) job.id]
         else []) := by
  unfold updateStep
  split_ifs <;>
    simp_all [List.filter, isFlagUpdateAttemptEv, isGetDocEv, isUpdateEv] <;>
      split_ifs <;>
        simp_all [List.filter, isGetDocEv, isUpdateEv]

lemma updateStep_filter_notFound (env : Env) (job : Job) (ok : Bool) :
    (updateStep env job ok).filter isLogNotFoundEv
      = (if ok && env.getOk (collectionFor job) job.id
            && !env.docExists (collectionFor job) job.id then
           [PEv.logNotFound (collectionFor job) job.id]
         else []) := by
  unfold updateStep
  split_ifs <;> simp_all [List.filter, isLogNotFoundEv] <;>
    split_ifs <;> simp_all [List.filter, isLogNotFoundEv]

lemma updateStep_filter_updErr (env : Env) (job : Job) (ok : Bool) :
    (updateStep env job ok).filter isLogUpdateErrEv
      = (if ok && (!env.getOk (collectionFor job) job.id
            || (env.docExists (collectionFor job) job.id
                && !env.updateOk (collectionFor job) job.id)) then
           [PEv.logUpdateError job.id]
         else []) := by
  unfold updateStep
  split_ifs <;> simp_all [List.filter, isLogUpdateErrEv] <;>
    split_ifs <;> simp_all [List.filter, isLogUpdateErrEv]

lemma updateStep_filter_del (env : Env) (job : Job) (ok : Bool) :
    (updateStep env job ok).filter isDeleteEv = [] := by
  unfold updateStep
  split_ifs <;> simp [List.filter, isDeleteEv] <;>
    split_ifs <;> simp [List.filter, isDeleteEv]

lemma updateStep_filter_delErr (env : Env) (job : Job) (ok : Bool) :
    (updateStep env job ok).filter isLogDeleteErrEv = [] := by
  unfold updateStep
  split_ifs <;> simp [List.filter, isLogDeleteErrEv] <;>
    split_ifs <;> simp [List.filter, isLogDeleteErrEv]

lemma finallyStep_filter_del (env : Env) (job : Job) :
    (finallyStep env job).filter isDeleteEv
      = (match job.printId with
         | some pid => [PEv.delete pid]
         | none => []) := by
  rcases hpid : job.printId with _ | pid <;>
    simp only [finallyStep, hpid]
  · rfl
  · split_ifs <;> simp [List.filter, isDeleteEv]

lemma finallyStep_filter_delErr (env : Env) (job : Job) :
    (finallyStep env job).filter isLogDeleteErrEv
      = (match job.printId with
         | some pid =>
           if env.deleteOk pid then [] else [PEv.logDeleteError pid]
         | none => []) := by
  rcases hpid : job.printId with _ | pid <;>
    simp only [finallyStep, hpid]
  · rfl
  · split_ifs <;> simp_all [List.filter, isLogDeleteErrEv]

lemma finallyStep_filter_other (env : Env) (job : Job) (p : PEv → Bool)
    (hdel : ∀ pid, p (PEv.delete pid) = false)
    (herr : ∀ pid, p (PEv.logDeleteError pid) = false) :
    (finallyStep env job).filter p = [] := by
  rcases hpid : job.printId with _ | pid <;>
    simp only [finallyStep, hpid]
  · rfl
  · split_ifs <;> simp [List.filter, hdel, herr]

/-! ### C3: emission calls per order type -/

/-- Oracle for the C3 counterexample: the print to kitchen B throws, every
other operation succeeds. -/
def c3Env : Env :=
  { printOk := fun _ k => !(k == KITCHEN_B),
    getOk := fun _ _ => true,
    docExists := fun _ _ => true,
    updateOk := fun _ _ => true,
    deleteOk := fun _ => true }

def c3Job : Job := { id := "order2", orderType := "Take Out", printId := none }

/-- Counterexample to C3 as stated: for a Take Out job whose first emission
(to kitchen B) throws, the loop aborts and only one emission call is made,
not two. -/
theorem c3_counterexample :
    c3Job.orderType = TAKE_OUT ∧
    (processOneJob c3Env c3Job).1.filter isPrintEv = [PEv.print ("order2") KITCHEN_B] ∧
    ((processOneJob c3Env c3Job).1.filter isPrintEv).length ≠ 2 := by
  decide

/-- C3 amended: a Take Out job gets the emission call to kitchen B and, only
when that call completes, a second call to kitchen A, in that order; every
other order type gets exactly one emission call with the empty kitchen tag. -/
theorem c3_amended_emission_calls (env : Env) (job : Job) :
    (processOneJob env job).1.filter isPrintEv
      = (if job.orderType = TAKE_OUT then
           if env.printOk job.id KITCHEN_B then
             [PEv.print job.id KITCHEN_B, PEv.print job.id KITCHEN_A]
           else [PEv.print job.id KITCHEN_B]
         else [PEv.print job.id EMPTY_TAG]) := by
  rw [processOneJob_fst, List.filter_append, List.filter_append,
    emissionStep_filter_print, updateStep_filter_print,
    finallyStep_filter_other env job isPrintEv (fun pid => rfl) (fun pid => rfl),
    List.append_nil, List.append_nil, emissionStep_fst]

/-! ### C1: the printed-flag update protocol -/

/-- Oracle for the C1 counterexample: every print throws, all Firestore
operations succeed and the source-of-truth document exists. -/
def c1Env : Env :=
  { printOk := fun _ _ => false,
    getOk := fun _ _ => true,
    docExists := fun _ _ => true,
    updateOk := fun _ _ => true,
    deleteOk := fun _ => true }

def c1Job : Job :=
  { id := "order1", orderType := "Dine In", printId := some ("p1") }

/-- Counterexample to C1 as stated: for a Dine In job whose emission fails,
the source-of-truth record exists, yet the protocol never attempts the
printed-flag update (no document fetch, no update call) — the update block is
inside the success path of the outer try. -/
theorem c1_counterexample :
    c1Env.docExists (collectionFor c1Job) c1Job.id = true ∧
    (processOneJob c1Env c1Job).2 = false ∧
    (processOneJob c1Env c1Job).1.any isFlagUpdateAttemptEv = false := by
  decide

/-- C1 amended: the printed-flag update is attempted only when every required
emission succeeded; it targets the collection chosen by order type, the
update call itself happens only when the fetch succeeds and the record
exists, a missing record is logged, a thrown fetch/update is logged, and
none of this changes the job's outcome (which equals the emission outcome). -/
theorem c1_amended_update_protocol (env : Env) (job : Job) :
    ((processOneJob env job).1.filter isFlagUpdateAttemptEv
      = (if (processOneJob env job).2 then
           if env.getOk (collectionFor job) job.id
               && env.docExists (collectionFor job) job.id then
             [PEv.getDoc (collectionFor job) job.id,
              PEv.update (collectionFor job) job.id]
           else [PEv.getDoc (collectionFor job) job.id]
         else [])) ∧
    ((processOneJob env job).1.filter isLogNotFoundEv
      = (if (processOneJob env job).2 && env.getOk (collectionFor job) job.id
            && !env.docExists (collectionFor job) job.id then
           [PEv.logNotFound (collectionFor job) job.id]
         else [])) ∧
    ((processOneJob env job).1.filter isLogUpdateErrEv
      = (if (processOneJob env job).2
            && (!env.getOk (collectionFor job) job.id
                || (env.docExists (collectionFor job) job.id
                    && !env.updateOk (collectionFor job) job.id)) then
           [PEv.logUpdateError job.id]
         else [])) ∧
    (processOneJob env job).2 = emissionOk env job := by
  refine ⟨?_, ?_, ?_, emissionStep_snd env job⟩
  · rw [processOneJob_fst, List.filter_append, List.filter_append,
      emissionStep_filter_not_print env job isFlagUpdateAttemptEv
        (fun a b => rfl),
      updateStep_filter_attempt,
      finallyStep_filter_other env job isFlagUpdateAttemptEv
        (fun pid => rfl) (fun pid => rfl),
      List.append_nil, List.nil_append]
    rfl
  · rw [processOneJob_fst, List.filter_append, List.filter_append,
      emissionStep_filter_not_print env job isLogNotFoundEv (fun a b => rfl),
      updateStep_filter_notFound,
      finallyStep_filter_other env job isLogNotFoundEv
        (fun pid => rfl) (fun pid => rfl),
      List.append_nil, List.nil_append]
    rfl
  · rw [processOneJob_fst, List.filter_append, List.filter_append,
      emissionStep_filter_not_print env job isLogUpdateErrEv (fun a b => rfl),
      updateStep_filter_updErr,
      finallyStep_filter_other env job isLogUpdateErrEv
        (fun pid => rfl) (fun pid => rfl),
      List.append_nil, List.nil_append]
    rfl

/-! ### C4: durable queue entry deletion -/

/-- C4: whatever the oracle decides about printing and the printed-flag
update, a job carrying a `printId` gets exactly one queue-entry delete call
for that id, a thrown delete being only logged; a job without a `printId`
completes with no delete call attempted. -/
theorem c4_queue_entry_deletion (env : Env) (job : Job) :
    ((processOneJob env job).1.filter isDeleteEv
      = (match job.printId with
         | some pid => [PEv.delete pid]
         | none => [])) ∧
    ((processOneJob env job).1.filter isLogDeleteErrEv
      = (match job.printId with
         | some pid =>
           if env.deleteOk pid then [] else [PEv.logDeleteError pid]
         | none => [])) := by
  constructor
  · rw [processOneJob_fst, List.filter_append, List.filter_append,
      emissionStep_filter_not_print env job isDeleteEv (fun a b => rfl),
      updateStep_filter_del, finallyStep_filter_del,
      List.nil_append, List.nil_append]
  · rw [processOneJob_fst, List.filter_append, List.filter_append,
      emissionStep_filter_not_print env job isLogDeleteErrEv (fun a b => rfl),
      updateStep_filter_delErr, finallyStep_filter_delErr,
      List.nil_append, List.nil_append]

/-! ## server.js: the dispatch queue discipline (printQueue / isPrinting)

The single-threaded event loop is modelled as a transition system.  A state
holds the in-memory FIFO buffer (`printQueue`) and the in-flight job
(`current = some j` iff `isPrinting` is set while job `j` is being
processed).  Two actions can fire:

  * `enqueue j` — the change-feed handler (server.js lines 110-119) pushes
    a job and synchronously calls `processQueue()`, whose prefix up to its
    first await either starts the head job or no-ops when busy/empty;
  * `finish` — the awaited body of the in-flight job completes (successfully
    or not); the finally block clears `isPrinting` and synchronously
    re-invokes `processQueue()` (server.js lines 90-91), which immediately
    starts the next buffered job if any.

Both synchronous suffixes are atomic in JS (no await between them), which
is why each action performs its trigger in the same transition.  The trace
records job starts and job ends. -/

inductive QEv (α : Type) where
  | jobStart (j : α)
  | jobEnd (j : α)
deriving DecidableEq

structure DQState (α : Type) where
  buf : List α
  current : Option α
deriving DecidableEq

inductive QAct (α : Type) where
  | enqueue (j : α)
  | finish
deriving DecidableEq

def dqInit {α : Type} : DQState α := { buf := [], current := none }

/-- The synchronous prefix of `processQueue()`: return if `isPrinting` or the
queue is empty, otherwise shift the head job and mark it in-flight. -/
def triggerDrain {α : Type} (s : DQState α) : DQState α × List (QEv α) :=
  match s.current, s.buf with
  | some _, _ => (s, [])
  | none, [] => (s, [])
  | none, j :: rest => ({ buf := rest, current := some j }, [QEv.jobStart j])

def dqStep {α : Type} (s : DQState α) : QAct α → DQState α × List (QEv α)
  | QAct.enqueue j => triggerDrain { s with buf := s.buf ++ [j] }
  | QAct.finish =>
    match s.current with
    | none => (s, [])
    | some j =>
      let r := triggerDrain { buf := s.buf, current := none }
      (r.1, QEv.jobEnd j :: r.2)

def dqRun {α : Type} (s : DQState α) : List (QAct α) → DQState α × List (QEv α)
  | [] => (s, [])
  | a :: acts =>
    ((dqRun (dqStep s a).1 acts).1,
      (dqStep s a).2 ++ (dqRun (dqStep s a).1 acts).2)

def enqueuedJobs {α : Type} : List (QAct α) → List α
  | [] => []
  | QAct.enqueue j :: acts => j :: enqueuedJobs acts
  | QAct.finish :: acts => enqueuedJobs acts

/-- The trace of a fully processed job list: for each job in order, a start
event immediately followed by its end event. -/
def pairTrace {α : Type} (jobs : List α) : List (QEv α) :=
  jobs.bind (fun j => [QEv.jobStart j, QEv.jobEnd j])

def optList {α : Type} : Option α → List α
  | some j => [j]
  | none => []

def startTail {α : Type} : Option α → List (QEv α)
  | some j => [QEv.jobStart j]
  | none => []

lemma dqRun_append {α : Type} (s : DQState α) (as bs : List (QAct α)) :
    dqRun s (as ++ bs)
      = ((dqRun (dqRun s as).1 bs).1,
          (dqRun s as).2 ++ (dqRun (dqRun s as).1 bs).2) := by
  induction as generalizing s with
  | nil => simp [dqRun]
  | cons a as ih => simp [dqRun, ih, List.append_assoc]

lemma enqueuedJobs_append {α : Type} (as bs : List (QAct α)) :
    enqueuedJobs (as ++ bs) = enqueuedJobs as ++ enqueuedJobs bs := by
  induction as with
  | nil => simp [enqueuedJobs]
  | cons a as ih => cases a <;> simp [enqueuedJobs, ih]

lemma pairTrace_append {α : Type} (jobs : List α) (j : α) :
    pairTrace (jobs ++ [j])
      = pairTrace jobs ++ [QEv.jobStart j, QEv.jobEnd j] := by
  simp [pairTrace]

/-- Scheduling invariant of the dispatch queue: along any action sequence
from the initial state, the trace consists of completed start/end pairs for
a list `done` of jobs, followed by the pending start of the in-flight job
(if any); and the enqueued jobs are exactly `done`, then the in-flight job,
then the buffer contents — in order. -/
lemma dqRun_invariant {α : Type} (acts : List (QAct α)) :
    ∃ done : List α,
      (dqRun (dqInit (α := α)) acts).2
          = pairTrace done ++ startTail (dqRun (dqInit (α := α)) acts).1.current ∧
      enqueuedJobs acts
          = done ++ optList (dqRun (dqInit (α := α)) acts).1.current
              ++ (dqRun (dqInit (α := α)) acts).1.buf := by
  induction acts using List.reverseRecOn with
  | nil => exact ⟨[], rfl, rfl⟩
  | append_singleton as a ih =>
    obtain ⟨done, htr, henq⟩ := ih
    rw [dqRun_append, enqueuedJobs_append]
    set s := (dqRun (dqInit (α := α)) as).1 with hs
    cases a with
    | enqueue j =>
      simp only [dqRun, dqStep, List.append_nil]
      rcases hcur : s.current with _ | c
      · rcases hbuf : s.buf with _ | ⟨h, t⟩
        · -- idle and empty: the new job starts at once
          refine ⟨done, ?_, ?_⟩
          · simp [triggerDrain, hcur, hbuf, htr, startTail]
          · simp only [enqueuedJobs, triggerDrain, hcur, hbuf, henq]
            simp [optList, startTail, hcur, hbuf]
        · -- idle with a non-empty buffer (transient shape): head starts
          refine ⟨done, ?_, ?_⟩
          · simp [triggerDrain, hcur, hbuf, htr, startTail]
          · simp only [enqueuedJobs, triggerDrain, hcur, hbuf, henq]
            simp [optList, startTail, hcur, hbuf]
      · -- busy: the job is only buffered
        refine ⟨done, ?_, ?_⟩
        · simp [triggerDrain, hcur, htr, startTail]
        · simp only [enqueuedJobs, triggerDrain, hcur, henq]
          simp [optList, startTail, hcur]
    | finish =>
      simp only [dqRun, dqStep, List.append_nil]
      rcases hcur : s.current with _ | c
      · -- nothing in flight: no-op
        refine ⟨done, ?_, ?_⟩
        · simp [htr, hcur, startTail]
        · simp [enqueuedJobs, henq, hcur]
      · rcases hbuf : s.buf with _ | ⟨h, t⟩
        · -- the in-flight job ends; the buffer is empty, queue goes idle
          refine ⟨done ++ [c], ?_, ?_⟩
          · simp [triggerDrain, hcur, hbuf, htr, startTail, pairTrace_append]
          · simp only [enqueuedJobs, triggerDrain, hcur, hbuf, henq]
            simp [optList, startTail]
        · -- the in-flight job ends and the buffered head starts at once
          refine ⟨done ++ [c], ?_, ?_⟩
          · simp [triggerDrain, hcur, hbuf, htr, startTail, pairTrace_append]
          · simp only [enqueuedJobs, triggerDrain, hcur, hbuf, henq]
            simp [optList, startTail]

/-- C2: for any interleaving of change-feed enqueues with an in-flight drain
that ends quiescent (empty buffer, no job in flight), the event trace is
exactly one start/end pair per enqueued job, in FIFO enqueue order — so all
N jobs are processed, each exactly once, and no two processing attempts
overlap in time (every start is immediately followed by its own end). -/
theorem c2_dispatch_queue_fifo {α : Type} (acts : List (QAct α))
    (hbuf : (dqRun (dqInit (α := α)) acts).1.buf = [])
    (hcur : (dqRun (dqInit (α := α)) acts).1.current = none) :
    (dqRun (dqInit (α := α)) acts).2 = pairTrace (enqueuedJobs acts) := by
  obtain ⟨done, htr, henq⟩ := dqRun_invariant acts
  rw [htr, henq, hcur, hbuf]
  simp [startTail, optList]

/-- Witness for C2: two jobs enqueued while the first is still printing are
processed in order, one at a time. -/
theorem c2_dispatch_queue_fifo_witness :
    ((dqRun (dqInit (α := Nat))
        [QAct.enqueue 1, QAct.enqueue 2, QAct.finish, QAct.finish]).1.buf = []
      ∧ (dqRun (dqInit (α := Nat))
        [QAct.enqueue 1, QAct.enqueue 2, QAct.finish, QAct.finish]).1.current = none)
    ∧ (dqRun (dqInit (α := Nat))
        [QAct.enqueue 1, QAct.enqueue 2, QAct.finish, QAct.finish]).2
      = pairTrace (enqueuedJobs
          [QAct.enqueue 1, QAct.enqueue 2, QAct.finish, QAct.finish]) :=
  ⟨⟨by decide, by decide⟩,
    c2_dispatch_queue_fifo
      [QAct.enqueue 1, QAct.enqueue 2, QAct.finish, QAct.finish]
      (by decide) (by decide)⟩

/-! ## src/printer.js: the ticket emitter

The printable surface is modelled as the list of commands issued to it.
Each helper mirrors the corresponding printer.js function, emitting the
same command sequence under the same conditions on the order.  Two renderings
are abstracted, since no claim inspects them: locale date formatting
(`formatDate` renders a tagged placeholder from the epoch value) and
JS `toFixed(2)` (rendered from the half-up rounded cents; the historical
string-vs-number comparison on the item total is numerically equivalent to
comparing the rounded cents with 0, which is what the embedding does). -/

inductive PrintCmd where
  | alignCenter
  | alignLeft
  | alignRight
  | bold (b : Bool)
  | underline (b : Bool)
  | setTextQuadArea
  | setTextNormal
  | setTextSize (h w : Nat)
  | println (s : String)
  | leftRight (l r : String)
  | newLine
  | cut
  | execute
deriving DecidableEq

/-- JS truthiness of an optional string field (absent and "" are falsy). -/
def truthyS : Option String → Bool
  | none => false
  | some s => !(s == "")

/-- JS truthiness of an optional numeric field (absent and 0 are falsy). -/
def truthyN : Option Nat → Bool
  | none => false
  | some n => !(n == 0)

/-- utils.js `toDateMaybe`, on the plain `{seconds, nanoseconds}` form,
yielding the epoch milliseconds
`ts.seconds * 1000 + Math.floor(ts.nanoseconds / 1e6)`. -/
def toDateMaybe (ts : Option Timestamp) : Option Int :=
  match ts with
  | none => none
  | some t => some (t.seconds * 1000 + Int.fdiv t.nanoseconds 1000000)

/-- utils.js `formatDate` (locale rendering abstracted to a tagged
placeholder; `if (!date) return ""`). -/
def formatDate (date : Option Int) (opts : String) : String :=
  match date with
  | none => ""
  | some ms => "DATE[" ++ opts ++ ":" ++ toString ms ++ "]"

/-- The half-up rounded cents behind `toFixed(2)`. -/
def cents (q : Rat) : Int :=
  Int.floor (q * 100 + 1 / 2)

/-- JS `x.toFixed(2)` rendering. -/
def toFixed2 (q : Rat) : String :=
  let c := cents q
  let a := c.natAbs
  (if c < 0 then "-" else "")
    ++ toString (a / 100) ++ "."
    ++ (if a % 100 < 10 then "0" else "") ++ toString (a % 100)

def printSectionHeader (title : String) : List PrintCmd :=
  [PrintCmd.alignCenter, PrintCmd.setTextQuadArea, PrintCmd.bold true,
   PrintCmd.println ("---- " ++ title ++ " ----"),
   PrintCmd.alignLeft, PrintCmd.setTextNormal, PrintCmd.newLine]

def printRestaurantHeader (order : Order) : List PrintCmd :=
  (if order.paid then
    [PrintCmd.alignCenter, PrintCmd.setTextSize 2 2, PrintCmd.println ("Paid"),
     PrintCmd.newLine]
  else [])
  ++ [PrintCmd.alignCenter, PrintCmd.setTextQuadArea, PrintCmd.bold true,
      PrintCmd.println RESTAURANT_NAME, PrintCmd.newLine]

def printOrderTypeHeader (order : Order) (kitchen : String) : List PrintCmd :=
  [PrintCmd.setTextSize 2 2, PrintCmd.bold false]
  ++ (if order.orderType = TAKE_OUT && !order.isPreorder then
        [PrintCmd.println ("*Take Out " ++ kitchen ++ "*"), PrintCmd.newLine]
      else if truthyS order.tableNumber then
        [PrintCmd.println ("Table: " ++ order.tableNumber.getD (""))]
      else [])

def printPreorderInfo (order : Order) (kitchen : String) : List PrintCmd :=
  if !order.isPreorder then []
  else
    [PrintCmd.setTextQuadArea,
     PrintCmd.println ("***Pre-Order " ++ kitchen ++ "***")]
    ++ (match (match order.preorderTime with
               | some _ => toDateMaybe order.preorderTime
               | none => none) with
        | some d =>
          [PrintCmd.println (formatDate (some d) ("ymd")),
           PrintCmd.println (formatDate (some d) ("whm"))]
        | none => [PrintCmd.newLine, PrintCmd.newLine])
    ++ [PrintCmd.setTextNormal]

def printOrderDetails (order : Order) : List PrintCmd :=
  [PrintCmd.setTextNormal, PrintCmd.alignLeft]
  ++ (if truthyS order.staffName then
        [PrintCmd.println ("Staff: " ++ order.staffName.getD (""))]
      else [])
  ++ (if order.orderType = DINE_IN && truthyN order.guests then
        [PrintCmd.println ("Guests: " ++ toString (order.guests.getD 0))]
      else [])
  ++ (if order.createdAt.isSome then
        [PrintCmd.println ("Ordered At: "
          ++ formatDate (toDateMaybe order.createdAt) ("mdyhm"))]
      else [])
  ++ (if !order.isPreorder && truthyN order.readyTime
        && !(order.orderType = DINE_IN) then
        [PrintCmd.println ("Ready in: " ++ toString (order.readyTime.getD 0)
          ++ " mins")]
      else [])
  ++ [PrintCmd.setTextQuadArea, PrintCmd.bold false]
  ++ (if order.orderType = TAKE_OUT then
        (if truthyS order.name then
          [PrintCmd.println ("Customer: " ++ order.name.getD (""))]
        else [])
        ++ (if truthyS order.phoneNumber then
          [PrintCmd.println ("Phone: " ++ formatPhone order.phoneNumber)]
        else [])
      else [])
  ++ [PrintCmd.setTextNormal, PrintCmd.println ("--------------------------------")]

/-- Rendering of one option line: quantity prefix when > 1, price shown only
when positive (JS renders an absent quantity as the string "undefined"). -/
def optQtyStr (o : OptRec) : String :=
  match o.quantity with
  | some q => toString q
  | none => "undefined"

def optNameStr (o : OptRec) : String :=
  match o.quantity with
  | some q => if 1 < q then toString q ++ "x " ++ o.name else o.name
  | none => o.name

def optPriceStr (o : OptRec) : String :=
  match o.price with
  | some p => if 0 < p then optQtyStr o ++ "x " ++ toFixed2 p else ""
  | none => ""

def printOrderItem (item : Item) : List PrintCmd :=
  let itemTotal := item.price * (item.quantity.getD 1 : Nat)
  [PrintCmd.alignLeft, PrintCmd.bold true, PrintCmd.setTextQuadArea,
   PrintCmd.println (item.displayName.getD ("")), PrintCmd.newLine,
   PrintCmd.setTextNormal, PrintCmd.bold true]
  ++ (match item.options with
      | some opts =>
        opts.bind (fun o =>
          [PrintCmd.leftRight ("   • " ++ optNameStr o) (optPriceStr o),
           PrintCmd.newLine])
      | none => [])
  ++ item.extras.bind (fun e =>
      [PrintCmd.leftRight ("   + Add Extra: " ++ e.description.toUpper)
        (if 0 < e.price then "$" ++ toFixed2 e.price else ""),
       PrintCmd.newLine])
  ++ item.changes.bind (fun c =>
      [PrintCmd.leftRight
        ("   + Change: " ++ c.from_.toUpper ++ " -->> " ++ c.to_.toUpper)
        (if 0 < c.price then "$" ++ toFixed2 c.price else ""),
       PrintCmd.newLine])
  ++ (if truthyS item.instructions then
        [PrintCmd.println
          (("   * Note: \"" ++ item.instructions.getD ("") ++ "\"").toUpper)]
      else [])
  ++ [PrintCmd.alignRight, PrintCmd.setTextNormal, PrintCmd.bold true,
      PrintCmd.println (if 0 < cents itemTotal then "$" ++ toFixed2 itemTotal else ""),
      PrintCmd.setTextNormal]

def printOrderItems (groupedSections : List KSection) : List PrintCmd :=
  groupedSections.bind (fun s =>
    (if s.label = "Togo Items" then printSectionHeader ("TO GO")
     else if s.label = "Appetizers" then printSectionHeader ("Appetizers")
     else [])
    ++ s.items.bind printOrderItem
    ++ (if s.label = "Appetizers" then
          [PrintCmd.setTextNormal, PrintCmd.alignLeft, PrintCmd.bold true,
           PrintCmd.println ("--------------------------------")]
        else []))

def printTotals (order : Order) : List PrintCmd :=
  let t := getOrderTotals order none
  [PrintCmd.println ("--------------------------------"), PrintCmd.alignRight,
   PrintCmd.bold false,
   PrintCmd.println ("Subtotal: $" ++ toFixed2 t.subtotal),
   PrintCmd.println ("PST (6%): $" ++ toFixed2 t.pst),
   PrintCmd.println ("GST (5%): $" ++ toFixed2 t.gst),
   PrintCmd.println ("----------------------------"),
   PrintCmd.setTextQuadArea,
   PrintCmd.println ("TOTAL: $" ++ toFixed2 t.grandTotal),
   PrintCmd.setTextNormal, PrintCmd.newLine]

def printFooter (order : Order) (kitchen : String) : List PrintCmd :=
  [PrintCmd.alignCenter, PrintCmd.underline true,
   PrintCmd.println ("Thank you! Please come again!"),
   PrintCmd.println RESTAURANT_ADDRESS, PrintCmd.println RESTAURANT_PHONE,
   PrintCmd.underline false, PrintCmd.newLine,
   PrintCmd.setTextSize 2 2, PrintCmd.bold false]
  ++ (if order.orderType = TAKE_OUT then
        [PrintCmd.println ("*"
          ++ (if order.isPreorder then "Pre-Order" else "Take Out")
          ++ " " ++ kitchen ++ "*")]
      else if truthyS order.tableNumber then
        [PrintCmd.println ("Table: " ++ order.tableNumber.getD (""))]
      else [])
  ++ [PrintCmd.newLine]

/-- Result of one `printOrder` call: the commands issued to the surface and
the error carried by a thrown exception, if any. -/
structure EmitResult where
  output : List PrintCmd
  error : Option String
deriving DecidableEq

/-- printer.js `printOrder(order, kitchen)`: the connectivity check is the
first statement of the try block, before any formatting; when it fails the
function throws "Printer not connected" with nothing issued to the surface.
Otherwise it formats every section, cuts and executes. -/
def printOrder (connected : Bool) (order : Order) (kitchen : String) :
    EmitResult :=
  if connected then
    let processedItems := preprocessOrderItems order.orderItems
    let groupedSections := groupItemsByKitchen processedItems false
    { output :=
        printRestaurantHeader order
        ++ printOrderTypeHeader order kitchen
        ++ printPreorderInfo order kitchen
        ++ printOrderDetails order
        ++ printOrderItems groupedSections
        ++ printTotals order
        ++ printFooter order kitchen
        ++ [PrintCmd.cut, PrintCmd.execute],
      error := none }
  else { output := [], error := some ("Printer not connected") }

/-- C8: whenever the surface reports "not connected", `printOrder` fails with
the connection error and performs zero output — no formatting command and no
cut/commit reaches the surface, for every order and destination tag. -/
theorem c8_disconnected_zero_output (order : Order) (kitchen : String) :
    printOrder false order kitchen
      = { output := [], error := some ("Printer not connected") } := rfl

/-! ## Mutation frame of preprocessOrderItem (claim C9)

`preprocessOrderItem` begins with the shallow copy `const processed =
{...item}`: field writes then target the copy (unobservable from outside),
but `processed.options` initially aliases the caller's array, so the input
could only be mutated through that shared array.  To make this observable,
the function is re-embedded over an explicit array store: arrays live in a
store `σ : List (List Nat)` of lists of option references (JS filters
options by object reference `opt !== found`, which reference inequality on
`Nat` models exactly), an item holds `optionsRef`, an index into the store,
and each JS `filter` call allocates a fresh array at the end of the store
and redirects the copy's `optionsRef` to it.  A mutating implementation
(e.g. `splice`) would overwrite the array at the original index instead;
the claim is that the store at all pre-existing indices is unchanged. -/

structure ItemObj where
  name : String := ""
  quantity : Option Nat := none
  optionsRef : Option Nat := none
  displayName : Option String := none
deriving DecidableEq

def getOpt (optStore : List OptRec) (r : Nat) : OptRec :=
  optStore.getD r {}

def specialPredRef (optStore : List OptRec) (r : Nat) : Bool :=
  !((getOpt optStore r).name == EGG_ROLL)
    && !((getOpt optStore r).name == SPRING_ROLL)

def eggSpringPredRef (optStore : List OptRec) (r : Nat) : Bool :=
  eggSpringPred (getOpt optStore r)

def riceNoodlePredRef (optStore : List OptRec) (r : Nat) : Bool :=
  riceNoodlePred (getOpt optStore r)

/-- One rewrite rule over the store: find the first matching option
reference in the current array; when found, append the name suffix, allocate
the filtered array (JS `filter` always returns a fresh array) and point at
it.  State: (store, current name, current array reference). -/
def applyRule (pred : Nat → Bool) (suffix : Nat → String)
    (st : List (List Nat) × String × Nat) : List (List Nat) × String × Nat :=
  let arr := st.1.getD st.2.2 []
  match arr.find? pred with
  | some mref =>
    (st.1 ++ [arr.filter (fun x => !(x == mref))],
     st.2.1 ++ "/" ++ suffix mref,
     st.1.length)
  | none => st

/-- The three rules of `preprocessOrderItem`, in source order, over the
store. -/
def stAfterRules (optStore : List OptRec) (σ : List (List Nat))
    (name : String) (r : Nat) : List (List Nat) × String × Nat :=
  let st1 :=
    if name = SPECIAL_ITEM then
      applyRule (specialPredRef optStore)
        (fun m => (getOpt optStore m).name) (σ, name, r)
    else (σ, name, r)
  let st2 :=
    applyRule (eggSpringPredRef optStore)
      (fun m => if (getOpt optStore m).name == EGG_ROLL then "ER" else "SP") st1
  applyRule (riceNoodlePredRef optStore)
    (fun m => if (getOpt optStore m).name == RICE then "Rice" else "ND") st2

/-- Store-level embedding of orderItems.js `preprocessOrderItem`: the copy's
fields are the returned record, and all array effects go through the
store. -/
def preprocessOrderItemSt (optStore : List OptRec) (σ : List (List Nat))
    (item : ItemObj) : List (List Nat) × ItemObj :=
  match item.optionsRef with
  | none =>
    (σ, { item with displayName := some (mkDisplayName item.quantity item.name) })
  | some r =>
    if (σ.getD r []).isEmpty then
      (σ, { item with displayName := some (mkDisplayName item.quantity item.name) })
    else
      let st := stAfterRules optStore σ item.name r
      (st.1,
       { item with
           name := st.2.1
           optionsRef := some st.2.2
           displayName := some (mkDisplayName item.quantity st.2.1) })

lemma applyRule_extends (pred : Nat → Bool) (suffix : Nat → String)
    (st : List (List Nat) × String × Nat) :
    ∃ t, (applyRule pred suffix st).1 = st.1 ++ t := by
  unfold applyRule
  rcases h : (st.1.getD st.2.2 []).find? pred with _ | mref <;>
    simp only [h]
  · exact ⟨[], (List.append_nil st.1).symm⟩
  · exact ⟨_, rfl⟩

lemma stAfterRules_extends (optStore : List OptRec) (σ : List (List Nat))
    (name : String) (r : Nat) :
    ∃ t, (stAfterRules optStore σ name r).1 = σ ++ t := by
  unfold stAfterRules
  have h1 : ∃ t, (if name = SPECIAL_ITEM then
      applyRule (specialPredRef optStore)
        (fun m => (getOpt optStore m).name) (σ, name, r)
    else (σ, name, r)).1 = σ ++ t := by
    split_ifs
    · exact applyRule_extends _ _ _
    · exact ⟨[], by simp⟩
  obtain ⟨t1, h1⟩ := h1
  obtain ⟨t2, h2⟩ := applyRule_extends
    (eggSpringPredRef optStore)
    (fun m => if (getOpt optStore m).name == EGG_ROLL then "ER" else "SP") _
  obtain ⟨t3, h3⟩ := applyRule_extends
    (riceNoodlePredRef optStore)
    (fun m => if (getOpt optStore m).name == RICE then "Rice" else "ND") _
  refine ⟨t1 ++ t2 ++ t3, ?_⟩
  rw [h3, h2, h1]
  simp [List.append_assoc]

/-- C9: `preprocessOrderItem` never mutates its input.  Over the explicit
array store, the whole store up to its original length — in particular the
caller's options array at the input item's `optionsRef`, and every other
pre-existing array — is unchanged by the call: option removal allocates a
fresh array for the copy instead of editing the shared one, and the copy's
field updates never touch the caller's record. -/
theorem c9_no_input_mutation (optStore : List OptRec) (σ : List (List Nat))
    (item : ItemObj) :
    ((preprocessOrderItemSt optStore σ item).1).take σ.length = σ := by
  rcases href : item.optionsRef with _ | r <;>
    simp only [preprocessOrderItemSt, href]
  · exact List.take_length σ
  · split_ifs
    · exact List.take_length σ
    · obtain ⟨t, ht⟩ := stAfterRules_extends optStore σ item.name r
      simp only [ht]
      exact List.take_left σ t

end PrintServer
